import Mathlib

/-!
Shallow embedding of `src/utilities/blob_db/blob_db_impl.cc` (BlobDBImpl from
the rocksdb blob-log sketch).  The pure control flow of `Open`, `Put` and `Get`
is translated from the source; the external collaborators named by the spec
(compression codec, CRC32 primitive, property-block serialization, varint and
fixed-width coding utilities, block builder/parser, `ReadBlockContents`,
`BlockHandle::DecodeFrom`, the primary key-value store and the file
abstractions) live outside `src/` and are modelled from the spec, each marked
in its doc comment.
-/

namespace BlobDB

/-- Byte strings are lists of byte values. -/
abbrev Bytes := List Nat

/-- `BlobDBImpl::kBlockHeaderSize` (source line 39): size of the per-record
length header. -/
def kBlockHeaderSize : Nat := 8

/-- `kBlockTrailerSize` (RocksDB constant from `table/format.h`, outside
`src/`): 1-byte compression-type tag plus 4-byte masked CRC32, per spec
section 3 (BlobRecord). -/
def kBlockTrailerSize : Nat := 5

/-- `BlobDBImpl::kBytesPerSync` (source line 40): `1024 * 1024 * 128`. -/
def kBytesPerSync : Nat := 1024 * 1024 * 128

/-- `CompressionType::kNoCompression` (RocksDB enum, outside `src/`). -/
def kNoCompression : Nat := 0

/-- `CompressionType::kLZ4Compression` (RocksDB enum, outside `src/`). -/
def kLZ4Compression : Nat := 4

/-- `kBlockBasedTableMagicNumber` (RocksDB constant, outside `src/`). -/
def kBlockBasedTableMagicNumber : Nat := 0x88e241b785f4cff7

/-- Modelled from the spec: the emission loop of `PutVarint64` from
`util/coding.cc` (not under `src/`), structured over an explicit recursion
depth; a depth of 10 covers every 64-bit value since `128 ^ 10 = 2 ^ 70`. -/
def putVarint64Core : Nat → Nat → Bytes
  | 0, v => [v % 128]
  | fuel + 1, v =>
    if v < 128 then [v] else (v % 128 + 128) :: putVarint64Core fuel (v / 128)

/-- Modelled from the spec: `PutVarint64` from `util/coding.cc` (not under
`src/`), the standard little-endian base-128 variable-length encoding of a
64-bit value. -/
def putVarint64 (v : Nat) : Bytes := putVarint64Core 10 v

/-- Modelled from the spec: the scanning loop of `GetVarint64` from
`util/coding.cc` (not under `src/`); reads continuation bytes while shifting
by 7, refusing shifts of 64 or more. -/
def getVarint64Aux : Bytes → Nat → Nat → Option (Nat × Bytes)
  | [], _, _ => none
  | b :: rest, shift, acc =>
    if 64 ≤ shift then none
    else if b < 128 then some (acc + b * 2 ^ shift, rest)
    else getVarint64Aux rest (shift + 7) (acc + (b - 128) * 2 ^ shift)

/-- Modelled from the spec: `GetVarint64` from `util/coding.cc` (not under
`src/`). -/
def getVarint64 (bs : Bytes) : Option (Nat × Bytes) :=
  getVarint64Aux bs 0 0

/-- Modelled from the spec: `EncodeFixed32` from `util/coding.cc` (not under
`src/`), little-endian. -/
def encodeFixed32 (v : Nat) : Bytes :=
  [v % 256, v / 256 % 256, v / 65536 % 256, v / 16777216 % 256]

/-- Modelled from the spec: `EncodeFixed64` from `util/coding.cc` (not under
`src/`), little-endian. -/
def encodeFixed64 (v : Nat) : Bytes :=
  [v % 256, v / 256 % 256, v / 65536 % 256, v / 16777216 % 256,
   v / 4294967296 % 256, v / 1099511627776 % 256,
   v / 281474976710656 % 256, v / 72057594037927936 % 256]

/-- Modelled from the spec: `DecodeFixed32` from `util/coding.cc` (not under
`src/`), little-endian, on a 4-byte window. -/
def decodeFixed32 : Bytes → Nat
  | a :: b :: c :: d :: _ => a + b * 256 + c * 65536 + d * 16777216
  | _ => 0

/-- Bytes of a property name. -/
def strBytes (s : String) : Bytes := s.data.map Char.toNat

/-- Modelled from the spec: serialization done by `PropertyBlockBuilder`
(`table/meta_blocks.cc`, not under `src/`); the spec treats the header block
as an opaque ordered mapping of named properties, so any injective
length-prefixed rendering of the (name, value) pairs is faithful. -/
def serializeProps : List (String × Nat) → Bytes
  | [] => []
  | (n, v) :: rest =>
      putVarint64 (strBytes n).length ++ strBytes n ++ encodeFixed64 v ++
        serializeProps rest

/-- Modelled from the spec: the single-entry sorted-block encoding produced by
`BlockBuilder(1, false)` with one `Add(key, value)` (`table/block_builder.cc`,
not under `src/`): a (shared, non-shared, value-length) varint triple, the key
and value bytes, then the restart array `[0]` and the restart count `1`. -/
def blockBuild (key value : Bytes) : Bytes :=
  putVarint64 0 ++ putVarint64 key.length ++ putVarint64 value.length ++
    key ++ value ++ encodeFixed32 0 ++ encodeFixed32 1

/-- Modelled from the spec: what `Block::NewIterator` plus `SeekToFirst` plus
`value()` extract from block contents (`table/block.cc`, not under `src/`):
parse the leading (shared, non-shared, value-length) triple and return the
value bytes; `none` models the iterator carrying a `Corruption` status. -/
def blockFirstValue (b : Bytes) : Option Bytes :=
  match getVarint64 b with
  | none => none
  | some (shared, r1) =>
    if shared ≠ 0 then none
    else
      match getVarint64 r1 with
      | none => none
      | some (klen, r2) =>
        match getVarint64 r2 with
        | none => none
        | some (vlen, r3) =>
          if klen + vlen ≤ r3.length then some ((r3.drop klen).take vlen)
          else none

/-- Modelled from the spec: `BlockHandle::DecodeFrom` (`table/format.cc`, not
under `src/`): two varints (offset, size); `none` models its `Corruption`
status for a malformed or truncated encoding. -/
def decodeBlockHandle (b : Bytes) : Option (Nat × Nat × Bytes) :=
  match getVarint64 b with
  | none => none
  | some (off, r) =>
    match getVarint64 r with
    | none => none
    | some (sz, r2) => some (off, sz, r2)

/-- The `rocksdb::Status` values this core produces. -/
inductive Status where
  | Ok
  | NotFound
  | Corruption
  | NotSupported
  | IOError
deriving DecidableEq, Repr

/-- Modelled from the spec: the external pure collaborators of section 6 —
the compression codec (`CompressBlock` returns the compressed contents plus
the compression type actually used, possibly `kNoCompression` when
compressing is not beneficial) and the CRC32 primitive
(`Value`/`Extend`/`Mask`/`Unmask`). -/
structure Env where
  crcValue : Bytes → Nat
  crcExtend : Nat → Bytes → Nat
  crcMask : Nat → Nat
  crcUnmask : Nat → Nat
  compressBlock : Bytes → Bytes × Nat
  uncompress : Nat → Bytes → Option Bytes

/-- Modelled from the spec: the read side of the codec — contents tagged
`kNoCompression` are used as-is, otherwise decompressed per the tag. -/
def decompressWith (env : Env) (t : Nat) (c : Bytes) : Option Bytes :=
  if t = kNoCompression then some c else env.uncompress t c

/-- Well-formedness of the external collaborators, per spec section 6: the
codec round-trips through its own reported type tag, compression types are
byte-sized, CRC values are 32-bit, and masking is inverted by unmasking. -/
def Env.WF (env : Env) : Prop :=
  (∀ b, decompressWith env ((env.compressBlock b).2 % 256)
      (env.compressBlock b).1 = some b) ∧
  (∀ b, (env.compressBlock b).2 < 256) ∧
  (∀ b, env.crcValue b < 2 ^ 32) ∧
  (∀ c b, env.crcExtend c b < 2 ^ 32) ∧
  (∀ x, x < 2 ^ 32 → env.crcMask x < 2 ^ 32) ∧
  (∀ x, x < 2 ^ 32 → env.crcUnmask (env.crcMask x) = x)

/-- `BlobDBOptions` (fields used by `blob_db_impl.cc`); paths are byte
strings. -/
structure BlobDBOptions where
  blob_dir : Bytes
  path_relative : Bool
  has_ttl : Bool
deriving DecidableEq, Repr

/-- The mutable state of a `BlobDBImpl` together with its log file and the
primary store: `blob_dir_`, the log file's contents (the sequential writer
and random-access reader both address these bytes), `writer_offset_`,
`next_sync_offset_`, and the primary key-value store holding index entries. -/
structure BlobState where
  blob_dir : Bytes
  file : Bytes
  writer_offset : Nat
  next_sync_offset : Nat
  kv : List (Bytes × Bytes)
deriving DecidableEq, Repr

/-- `BlobDBImpl::BlobDBImpl` (source lines 68-78): `writer_offset_ = 0`,
`next_sync_offset_ = kBytesPerSync`, and `blob_dir_` is empty when
`bdb_options_.blob_dir` is empty, otherwise resolved against the primary
store's name when `path_relative` is set.  `47` is the path separator. -/
def mkBlobDB (dbname : Bytes) (opts : BlobDBOptions) : BlobState :=
  { blob_dir :=
      if opts.blob_dir = [] then []
      else if opts.path_relative then dbname ++ 47 :: opts.blob_dir
      else opts.blob_dir,
    file := [],
    writer_offset := 0,
    next_sync_offset := kBytesPerSync,
    kv := [] }

/-- `createHeader` (source lines 48-63): property list with magic, version 0,
the has-ttl flag, the LZ4 compression identifier, and, only when
`has_ttl` is set, earliest/latest from `ttl_range` defaulting to 0. -/
def createHeader (opts : BlobDBOptions) (ttl_range : Option (Nat × Nat)) :
    List (String × Nat) :=
  [("magic", kBlockBasedTableMagicNumber),
   ("version", 0),
   ("has_ttl", if opts.has_ttl then 1 else 0),
   ("compression", kLZ4Compression)] ++
    (if opts.has_ttl then
      [("earliest", ((ttl_range.map Prod.fst).getD 0)),
       ("latest", ((ttl_range.map Prod.snd).getD 0))]
     else [])

/-- Modelled from the spec: the primary store's `Get` (section 6), a thin
lookup of the stored bytes for a key. -/
def kvGet (kv : List (Bytes × Bytes)) (k : Bytes) : Option Bytes :=
  match kv with
  | [] => none
  | (k2, v) :: rest => if k2 = k then some v else kvGet rest k

/-- Success/failure of each fallible step inside `BlobDBImpl::Put`
(`true` means the step succeeds). -/
structure PutFaults where
  appendHeader : Bool
  appendPayload : Bool
  appendTrailer : Bool
  flush : Bool
  sync : Bool
  indexPut : Bool
deriving DecidableEq, Repr

/-- The fault schedule on which every step succeeds. -/
def allOk : PutFaults :=
  { appendHeader := true, appendPayload := true, appendTrailer := true,
    flush := true, sync := true, indexPut := true }

/-- Result of one `Put` call: the returned status, the post state, and
whether a durability sync was issued during the call. -/
structure PutResult where
  status : Status
  st : BlobState
  syncIssued : Bool
deriving DecidableEq, Repr

/-- The tail of `BlobDBImpl::Put` (source lines 184-190): advance
`writer_offset_` by payload plus trailer, build the index entry as
`PutVarint64(0)` followed by `BlockHandle::EncodeTo` (offset varint then
size varint), and store it in the primary store. -/
def putFinish (f : PutFaults) (st : BlobState) (key : Bytes) (file3 : Bytes)
    (nso : Nat) (sIss : Bool) (writer_offset1 handle_offset handle_size : Nat) :
    PutResult :=
  let writer_offset2 := writer_offset1 + handle_size + kBlockTrailerSize
  let index_entry :=
    putVarint64 0 ++ putVarint64 handle_offset ++ putVarint64 handle_size
  if f.indexPut then
    { status := .Ok,
      st := { st with file := file3, writer_offset := writer_offset2,
                      next_sync_offset := nso,
                      kv := (key, index_entry) :: st.kv },
      syncIssued := sIss }
  else
    { status := .IOError,
      st := { st with file := file3, writer_offset := writer_offset2,
                      next_sync_offset := nso },
      syncIssued := sIss }

/-- `BlobDBImpl::Put` (source lines 137-193): build a single-entry block,
compress it, frame it with the 8-byte length header holding the compressed
size and the (type tag, masked CRC of payload plus tag) trailer, append
header, payload and trailer in order, flush, sync when `writer_offset_` has
crossed `next_sync_offset_`, then record the index entry.  Note that
`writer_offset_ += kBlockHeaderSize` (source line 167) happens before the
header append's status is checked. -/
def put (env : Env) (f : PutFaults) (st : BlobState) (key value : Bytes) :
    PutResult :=
  let block_contents := (env.compressBlock (blockBuild key value)).1
  let compression := (env.compressBlock (blockBuild key value)).2 % 256
  let crc := env.crcExtend (env.crcValue block_contents) [compression]
  let trailer := compression :: encodeFixed32 (env.crcMask crc)
  let raw_block_size := block_contents.length
  let headerBytes := encodeFixed64 raw_block_size
  let writer_offset1 := st.writer_offset + kBlockHeaderSize
  if f.appendHeader then
    let file1 := st.file ++ headerBytes
    let handle_offset := writer_offset1
    let handle_size := raw_block_size
    if f.appendPayload then
      let file2 := file1 ++ block_contents
      if f.appendTrailer then
        let file3 := file2 ++ trailer
        if f.flush then
          if writer_offset1 > st.next_sync_offset then
            let nso := st.next_sync_offset + kBytesPerSync
            if f.sync then
              putFinish f st key file3 nso true writer_offset1 handle_offset
                handle_size
            else
              { status := .IOError,
                st := { st with file := file3,
                                writer_offset := writer_offset1,
                                next_sync_offset := nso },
                syncIssued := true }
          else
            putFinish f st key file3 st.next_sync_offset false writer_offset1
              handle_offset handle_size
        else
          { status := .IOError,
            st := { st with file := file3, writer_offset := writer_offset1 },
            syncIssued := false }
      else
        { status := .IOError,
          st := { st with file := file2, writer_offset := writer_offset1 },
          syncIssued := false }
    else
      { status := .IOError,
        st := { st with file := file1, writer_offset := writer_offset1 },
        syncIssued := false }
  else
    { status := .IOError,
      st := { st with writer_offset := writer_offset1 },
      syncIssued := false }

/-- A run of `Put` calls with every step succeeding; returns the final state
and the number of durability syncs issued across the run. -/
def putMany (env : Env) : BlobState → List (Bytes × Bytes) → BlobState × Nat
  | st, [] => (st, 0)
  | st, (k, v) :: rest =>
    let r := put env allOk st k v
    let p := putMany env r.st rest
    (p.1, (if r.syncIssued then 1 else 0) + p.2)

/-- Modelled from the spec: `ReadBlockContents` (`table/format.cc`, not under
`src/`) per spec section 4.3 — read exactly `sz + kBlockTrailerSize` bytes at
`off` (an I/O error on a short read), verify the masked CRC of payload plus
type tag against the stored trailer (`Corruption` on mismatch), and
decompress according to the record's own type tag. -/
def readBlockContents (env : Env) (file : Bytes) (off sz : Nat) :
    Except Status Bytes :=
  if off + sz + kBlockTrailerSize ≤ file.length then
    let payload := (file.drop off).take sz
    let trailerBytes := (file.drop (off + sz)).take kBlockTrailerSize
    let t := trailerBytes.headD 0
    if env.crcUnmask (decodeFixed32 trailerBytes.tail) =
        env.crcExtend (env.crcValue payload) [t] then
      match decompressWith env t payload with
      | some out => .ok out
      | none => .error .Corruption
    else .error .Corruption
  else .error .IOError

/-- `BlobDBImpl::Get` (source lines 195-230): look up the index entry in the
primary store (propagating `NotFound`), parse the file-number varint
(`Corruption` on failure), decode the block handle (propagating its
`Corruption`), read and validate the block (propagating its status), and
extract the value from the single-entry block. -/
def get (env : Env) (st : BlobState) (key : Bytes) : Except Status Bytes :=
  match kvGet st.kv key with
  | none => .error .NotFound
  | some index_entry =>
    match getVarint64 index_entry with
    | none => .error .Corruption
    | some (_, rest) =>
      match decodeBlockHandle rest with
      | none => .error .Corruption
      | some (off, sz, _) =>
        match readBlockContents env st.file off sz with
        | .error e => .error e
        | .ok contents =>
          match blockFirstValue contents with
          | none => .error .Corruption
          | some v => .ok v

/-- Success/failure of each fallible step inside `BlobDBImpl::Open`. -/
structure OpenFaults where
  createDir : Bool
  newWritableFile : Bool
  appendHeader : Bool
  newRandomAccessFile : Bool
deriving DecidableEq, Repr

/-- The fault schedule on which every `Open` step succeeds. -/
def allOpenOk : OpenFaults :=
  { createDir := true, newWritableFile := true, appendHeader := true,
    newRandomAccessFile := true }

/-- `BlobDBImpl::Open` (source lines 82-120): `NotSupported` when `blob_dir_`
is empty; propagate directory-creation and file-creation errors;
`NewWritableFile` creates `blob_dir/blob_log` afresh (truncating); write the
header produced by `createHeader(bdb_options_, ..., nullptr)` and advance
`writer_offset_` (never reset here) by its size; propagate the
random-access-open error. -/
def openDB (opts : BlobDBOptions) (f : OpenFaults) (st : BlobState) :
    Status × BlobState :=
  if st.blob_dir = [] then (.NotSupported, st)
  else if ¬ f.createDir then (.IOError, st)
  else if ¬ f.newWritableFile then (.IOError, st)
  else
    let st1 := { st with file := ([] : Bytes) }
    let headerBytes := serializeProps (createHeader opts none)
    if ¬ f.appendHeader then (.IOError, st1)
    else
      let st2 := { st1 with file := headerBytes,
                            writer_offset :=
                              st1.writer_offset + headerBytes.length }
      if ¬ f.newRandomAccessFile then (.IOError, st2)
      else (.Ok, st2)

/-- Compressed payload produced for one `Put` of `(k, v)`. -/
def cpayload (env : Env) (k v : Bytes) : Bytes :=
  (env.compressBlock (blockBuild k v)).1

/-- Length of the compressed payload produced for one `Put` of `(k, v)`. -/
def clen (env : Env) (k v : Bytes) : Nat := (cpayload env k v).length

/-- Compression-type tag byte stored for one `Put` of `(k, v)`. -/
def ctag (env : Env) (k v : Bytes) : Nat :=
  (env.compressBlock (blockBuild k v)).2 % 256

/-- Trailer bytes stored for one `Put` of `(k, v)`. -/
def ctrailer (env : Env) (k v : Bytes) : Bytes :=
  ctag env k v ::
    encodeFixed32
      (env.crcMask (env.crcExtend (env.crcValue (cpayload env k v))
        [ctag env k v]))

/-- A trivial well-formed collaborator instance: identity compression tagged
`kNoCompression`, constant-zero CRC, identity masking. -/
def envW : Env :=
  { crcValue := fun _ => 0,
    crcExtend := fun _ _ => 0,
    crcMask := fun x => x,
    crcUnmask := fun x => x,
    compressBlock := fun b => (b, kNoCompression),
    uncompress := fun _ _ => none }

/-- A concrete configuration with a blob directory. -/
def optsW : BlobDBOptions :=
  { blob_dir := [98, 100], path_relative := false, has_ttl := false }

/-- A concrete configuration with no blob directory. -/
def optsEmptyW : BlobDBOptions :=
  { blob_dir := [], path_relative := false, has_ttl := false }

/-- A fault schedule on which only the length-header append fails. -/
def faultHeaderW : PutFaults :=
  { appendHeader := false, appendPayload := true, appendTrailer := true,
    flush := true, sync := true, indexPut := true }

/-- A state carrying one index entry whose handle points far past any
freshly written header: file number 0, offset 1000, size 3. -/
def stStaleW : BlobState :=
  { blob_dir := [98, 100], file := [], writer_offset := 0,
    next_sync_offset := kBytesPerSync,
    kv := [([1], [0, 232, 7, 3])] }

theorem envW_WF : envW.WF := by
  refine ⟨?_, ?_, ?_, ?_, ?_, ?_⟩
  · intro b; simp [envW, decompressWith, kNoCompression]
  · intro b; norm_num [envW, kNoCompression]
  · intro b; norm_num [envW]
  · intro c b; norm_num [envW]
  · intro x hx; simpa [envW] using hx
  · intro x hx; simp [envW]

theorem getVarint64Aux_putVarint64Core (fuel : Nat) :
    ∀ v shift acc (rest : Bytes), shift ≤ 63 → v < 2 ^ (64 - shift) →
      v < 128 ^ fuel →
      getVarint64Aux (putVarint64Core fuel v ++ rest) shift acc =
        some (acc + v * 2 ^ shift, rest) := by
  induction fuel with
  | zero =>
    intro v shift acc rest hsh hv hf
    have hv0 : v = 0 := by simpa using hf
    subst hv0
    simp only [putVarint64Core, List.cons_append, List.nil_append,
      getVarint64Aux]
    rw [if_neg (by omega : ¬ 64 ≤ shift),
      if_pos (by omega : 0 % 128 < 128)]
    simp
  | succ fuel ih =>
    intro v shift acc rest hsh hv hf
    rw [putVarint64Core]
    by_cases h : v < 128
    · rw [if_pos h]
      simp only [List.cons_append, List.nil_append, getVarint64Aux]
      rw [if_neg (by omega : ¬ 64 ≤ shift), if_pos h]
      rfl
    · rw [if_neg h]
      simp only [List.cons_append, getVarint64Aux]
      rw [if_neg (by omega : ¬ 64 ≤ shift),
        if_neg (by omega : ¬ v % 128 + 128 < 128)]
      have hsh7 : shift + 7 ≤ 63 := by
        by_contra hcon
        have h1 : 64 - shift ≤ 7 := by omega
        have h2 : (2 : Nat) ^ (64 - shift) ≤ 2 ^ 7 :=
          Nat.pow_le_pow_right (by omega) h1
        omega
      have hdiv : v / 128 < 2 ^ (64 - (shift + 7)) := by
        have heq : (2 : Nat) ^ (64 - (shift + 7)) * 128 = 2 ^ (64 - shift) := by
          have h47 : 64 - (shift + 7) + 7 = 64 - shift := by omega
          calc (2 : Nat) ^ (64 - (shift + 7)) * 128
              = 2 ^ (64 - (shift + 7)) * 2 ^ 7 := by norm_num
            _ = 2 ^ (64 - (shift + 7) + 7) := (pow_add 2 _ 7).symm
            _ = 2 ^ (64 - shift) := by rw [h47]
        rw [Nat.div_lt_iff_lt_mul (by omega : 0 < 128), heq]
        exact hv
      have hfd : v / 128 < 128 ^ fuel := by
        rw [Nat.div_lt_iff_lt_mul (by omega : 0 < 128)]
        calc v < 128 ^ (fuel + 1) := hf
          _ = 128 ^ fuel * 128 := by rw [pow_succ]
      show getVarint64Aux (putVarint64Core fuel (v / 128) ++ rest) (shift + 7)
        (acc + (v % 128 + 128 - 128) * 2 ^ shift) =
          some (acc + v * 2 ^ shift, rest)
      rw [ih (v / 128) (shift + 7)
        (acc + (v % 128 + 128 - 128) * 2 ^ shift) rest hsh7 hdiv hfd]
      have hmod : v % 128 + 128 - 128 = v % 128 := by omega
      rw [hmod]
      have key : acc + v % 128 * 2 ^ shift + v / 128 * 2 ^ (shift + 7) =
          acc + v * 2 ^ shift := by
        have h128 : v % 128 + 128 * (v / 128) = v := Nat.mod_add_div v 128
        have h7 : (2 : ℕ) ^ (shift + 7) = 2 ^ shift * 128 := by
          rw [pow_add]; norm_num
        rw [h7]
        conv_rhs => rw [← h128]
        ring
      rw [key]

theorem getVarint64_putVarint64 (v : Nat) (hv : v < 2 ^ 64) (rest : Bytes) :
    getVarint64 (putVarint64 v ++ rest) = some (v, rest) := by
  have hf : v < 128 ^ 10 := by
    calc v < 2 ^ 64 := hv
      _ ≤ 128 ^ 10 := by norm_num
  have h := getVarint64Aux_putVarint64Core 10 v 0 0 rest (by omega)
    (by simpa using hv) hf
  simpa [getVarint64, putVarint64] using h

theorem decodeFixed32_encodeFixed32 (v : Nat) (hv : v < 2 ^ 32) :
    decodeFixed32 (encodeFixed32 v) = v := by
  simp only [encodeFixed32, decodeFixed32]
  omega

theorem encodeFixed64_length (v : Nat) : (encodeFixed64 v).length = 8 := rfl

theorem blockFirstValue_blockBuild (k v : Bytes)
    (hk : k.length < 2 ^ 64) (hv : v.length < 2 ^ 64) :
    blockFirstValue (blockBuild k v) = some v := by
  have h0 : (0 : Nat) < 2 ^ 64 := by norm_num
  simp only [blockFirstValue, blockBuild, List.append_assoc,
    getVarint64_putVarint64 0 h0, getVarint64_putVarint64 k.length hk,
    getVarint64_putVarint64 v.length hv, ne_eq, not_true_eq_false,
    if_false, ite_not, if_pos rfl]
  rw [if_pos (by simp [encodeFixed32])]
  rw [List.drop_left, List.take_left]

theorem ctrailer_length (env : Env) (k v : Bytes) :
    (ctrailer env k v).length = kBlockTrailerSize := by
  simp [ctrailer, encodeFixed32, kBlockTrailerSize]

theorem cpayload_length (env : Env) (k v : Bytes) :
    (cpayload env k v).length = clen env k v := rfl

theorem put_allOk_st (env : Env) (st : BlobState) (k v : Bytes) :
    (put env allOk st k v).st =
      { st with
        file := st.file ++ encodeFixed64 (clen env k v) ++ cpayload env k v ++
          ctrailer env k v,
        writer_offset := st.writer_offset + kBlockHeaderSize + clen env k v +
          kBlockTrailerSize,
        next_sync_offset :=
          if st.writer_offset + kBlockHeaderSize > st.next_sync_offset then
            st.next_sync_offset + kBytesPerSync
          else st.next_sync_offset,
        kv := (k, putVarint64 0 ++
            putVarint64 (st.writer_offset + kBlockHeaderSize) ++
            putVarint64 (clen env k v)) :: st.kv } := by
  by_cases hc : st.writer_offset + kBlockHeaderSize > st.next_sync_offset
  · simp [put, putFinish, allOk, cpayload, clen, ctrailer, ctag, if_pos hc]
  · simp [put, putFinish, allOk, cpayload, clen, ctrailer, ctag, if_neg hc]

theorem put_allOk_status (env : Env) (st : BlobState) (k v : Bytes) :
    (put env allOk st k v).status = .Ok := by
  by_cases hc : st.writer_offset + kBlockHeaderSize > st.next_sync_offset
  · simp [put, putFinish, allOk, if_pos hc]
  · simp [put, putFinish, allOk, if_neg hc]

theorem put_allOk_syncIssued (env : Env) (st : BlobState) (k v : Bytes) :
    (put env allOk st k v).syncIssued = true ↔
      st.writer_offset + kBlockHeaderSize > st.next_sync_offset := by
  by_cases hc : st.writer_offset + kBlockHeaderSize > st.next_sync_offset
  · simp [put, putFinish, allOk, if_pos hc, hc]
  · simp [put, putFinish, allOk, if_neg hc, hc]

theorem put_allOk_nso (env : Env) (st : BlobState) (k v : Bytes) :
    (put env allOk st k v).st.next_sync_offset =
      st.next_sync_offset +
        kBytesPerSync * (if (put env allOk st k v).syncIssued then 1 else 0) := by
  by_cases hc : st.writer_offset + kBlockHeaderSize > st.next_sync_offset
  · simp [put, putFinish, allOk, if_pos hc]
  · simp [put, putFinish, allOk, if_neg hc]

theorem putMany_writer_offset (env : Env) (pairs : List (Bytes × Bytes)) :
    ∀ st : BlobState, st.writer_offset = st.file.length →
      (putMany env st pairs).1.writer_offset =
        st.writer_offset +
          (pairs.map (fun p =>
            kBlockHeaderSize + clen env p.1 p.2 + kBlockTrailerSize)).sum ∧
      (putMany env st pairs).1.writer_offset =
        (putMany env st pairs).1.file.length := by
  induction pairs with
  | nil => intro st hst; simpa [putMany] using hst
  | cons p rest ih =>
    obtain ⟨k, v⟩ := p
    intro st hst
    have hp := put_allOk_st env st k v
    have hst1 : (put env allOk st k v).st.writer_offset =
        (put env allOk st k v).st.file.length := by
      rw [hp]
      simp [encodeFixed64_length, cpayload_length, ctrailer_length, hst,
        kBlockHeaderSize]
      omega
    have hw1 : (put env allOk st k v).st.writer_offset =
        st.writer_offset + (kBlockHeaderSize + clen env k v +
          kBlockTrailerSize) := by
      rw [hp]; simp; omega
    obtain ⟨ihA, ihB⟩ := ih (put env allOk st k v).st hst1
    constructor
    · simp only [putMany]
      rw [ihA, hw1]
      simp [List.sum_cons]
      omega
    · simpa only [putMany] using ihB

theorem putMany_nso (env : Env) (pairs : List (Bytes × Bytes)) :
    ∀ st : BlobState,
      (putMany env st pairs).1.next_sync_offset =
        st.next_sync_offset + kBytesPerSync * (putMany env st pairs).2 := by
  induction pairs with
  | nil => intro st; simp [putMany]
  | cons p rest ih =>
    obtain ⟨k, v⟩ := p
    intro st
    simp only [putMany]
    rw [ih (put env allOk st k v).st, put_allOk_nso]
    ring

theorem openDB_allOk (opts : BlobDBOptions) (st : BlobState)
    (h : st.blob_dir ≠ []) :
    openDB opts allOpenOk st =
      (Status.Ok,
        { st with
          file := serializeProps (createHeader opts none),
          writer_offset :=
            st.writer_offset +
              (serializeProps (createHeader opts none)).length }) := by
  simp [openDB, allOpenOk, if_neg h]

theorem mkBlobDB_dir_ne (dbname : Bytes) (opts : BlobDBOptions)
    (hdir : opts.blob_dir ≠ []) : (mkBlobDB dbname opts).blob_dir ≠ [] := by
  simp only [mkBlobDB]
  rw [if_neg hdir]
  cases hpr : opts.path_relative
  · simpa [hpr] using hdir
  · simp [hpr]

/-- C2: the claim that `writer_offset_` is advanced only for steps that
succeeded is refuted at a concrete input: a `Put` on a fresh database whose
length-header append fails returns an error and hands zero bytes to the file
writer (the file is unchanged), yet `writer_offset_` is advanced by the
8-byte header size (source line 167 increments before checking the append's
status). -/
theorem put_offset_claim_false :
    (put envW faultHeaderW (mkBlobDB [100] optsW) [1] [2]).status =
        Status.IOError ∧
    (put envW faultHeaderW (mkBlobDB [100] optsW) [1] [2]).st.file =
        (mkBlobDB [100] optsW).file ∧
    (put envW faultHeaderW (mkBlobDB [100] optsW) [1] [2]).st.writer_offset =
        (mkBlobDB [100] optsW).writer_offset + kBlockHeaderSize := by
  refine ⟨rfl, rfl, rfl⟩

/-- C2 (amended): on every `Put` call, `writer_offset_` is advanced by the
8-byte length-header size unconditionally — even when the header append
failed — while the payload and trailer sizes are added exactly when the
payload append, trailer append, flush and any triggered sync all succeeded;
the file receives exactly the bytes of the steps that succeeded, so
`writer_offset_` equals the bytes handed to the writer only on fully
successful calls. -/
theorem put_writer_offset_formula (env : Env) (f : PutFaults) (st : BlobState)
    (k v : Bytes) :
    (put env f st k v).st.writer_offset =
      st.writer_offset + kBlockHeaderSize +
        (if f.appendHeader = true ∧ f.appendPayload = true ∧
            f.appendTrailer = true ∧ f.flush = true ∧
            (st.writer_offset + kBlockHeaderSize > st.next_sync_offset →
              f.sync = true)
         then clen env k v + kBlockTrailerSize else 0) ∧
    (put env f st k v).st.file.length =
      st.file.length +
        (if f.appendHeader = true then kBlockHeaderSize else 0) +
        (if f.appendHeader = true ∧ f.appendPayload = true then clen env k v
         else 0) +
        (if f.appendHeader = true ∧ f.appendPayload = true ∧
            f.appendTrailer = true
         then kBlockTrailerSize else 0) := by
  obtain ⟨a, b, c, d, e, g⟩ := f
  cases a <;> cases b <;> cases c <;> cases d <;> cases e <;> cases g <;>
    by_cases hc : st.next_sync_offset < st.writer_offset + 8 <;>
      simp [put, putFinish, hc, clen, cpayload, ctrailer, ctag,
        encodeFixed32, encodeFixed64_length, kBlockHeaderSize,
        kBlockTrailerSize] <;>
      omega

/-- C3: starting from the constructor state, after a successful `Open` and N
all-successful `Put` calls, `writer_offset_` equals the header's encoded size
plus the sum over the N records of (8-byte length header + compressed payload
length + 5-byte trailer), and this equals the physical length of the log
file. -/
theorem open_putMany_offset (env : Env) (dbname : Bytes)
    (opts : BlobDBOptions) (pairs : List (Bytes × Bytes))
    (hdir : opts.blob_dir ≠ []) :
    (putMany env (openDB opts allOpenOk (mkBlobDB dbname opts)).2
        pairs).1.writer_offset =
      (serializeProps (createHeader opts none)).length +
        (pairs.map (fun p =>
          kBlockHeaderSize + clen env p.1 p.2 + kBlockTrailerSize)).sum ∧
    (putMany env (openDB opts allOpenOk (mkBlobDB dbname opts)).2
        pairs).1.writer_offset =
      (putMany env (openDB opts allOpenOk (mkBlobDB dbname opts)).2
        pairs).1.file.length := by
  rw [openDB_allOk opts _ (mkBlobDB_dir_ne dbname opts hdir)]
  have hinv := putMany_writer_offset env pairs
    { mkBlobDB dbname opts with
      file := serializeProps (createHeader opts none),
      writer_offset := (mkBlobDB dbname opts).writer_offset +
        (serializeProps (createHeader opts none)).length }
    (by simp [mkBlobDB])
  obtain ⟨hA, hB⟩ := hinv
  refine ⟨?_, hB⟩
  rw [hA]
  simp [mkBlobDB]

/-- C4: during an all-successful `Put`, a durability sync is issued exactly
when the tracked `writer_offset_` (already advanced by the 8-byte header) has
crossed `next_sync_offset_` at the point of the check; when issued,
`next_sync_offset_` advances by exactly one interval of
`kBytesPerSync = 134217728` bytes and is unchanged otherwise; across any run
of all-successful `Put` calls the sync threshold advances by exactly one
interval per sync issued, so syncs are tied to boundary crossings rather
than being issued on every write. -/
theorem sync_cadence (env : Env) (st : BlobState) (k v : Bytes)
    (pairs : List (Bytes × Bytes)) :
    ((put env allOk st k v).syncIssued = true ↔
      st.writer_offset + kBlockHeaderSize > st.next_sync_offset) ∧
    (put env allOk st k v).st.next_sync_offset =
      (if st.writer_offset + kBlockHeaderSize > st.next_sync_offset then
        st.next_sync_offset + kBytesPerSync
       else st.next_sync_offset) ∧
    kBytesPerSync = 134217728 ∧
    (putMany env st pairs).1.next_sync_offset =
      st.next_sync_offset + kBytesPerSync * (putMany env st pairs).2 := by
  refine ⟨put_allOk_syncIssued env st k v, ?_,
    by norm_num [kBytesPerSync], putMany_nso env pairs st⟩
  rw [put_allOk_st]

/-- C5: after a successful `Put`, the index entry recorded for the key in the
primary store encodes file number 0, an offset equal to the pre-append
`writer_offset_` plus the 8-byte length header (the first byte of the
compressed payload), and a size equal to the compressed payload length the
codec produced for this very call. -/
theorem put_handle_in_index (env : Env) (st : BlobState) (k v : Bytes) :
    kvGet (put env allOk st k v).st.kv k =
      some (putVarint64 0 ++
        putVarint64 (st.writer_offset + kBlockHeaderSize) ++
        putVarint64 (clen env k v)) := by
  rw [put_allOk_st]
  simp [kvGet]

/-- C6: the bytes a successful `Put` appends to the log file are exactly an
8-byte length header encoding the compressed payload length, the compressed
payload, and a 5-byte trailer whose first byte is the compression-type tag
and whose last 4 bytes are the masked CRC32 computed over the compressed
payload extended with the tag — the length header is not an input of the
CRC. -/
theorem put_record_frame (env : Env) (st : BlobState) (k v : Bytes) :
    (put env allOk st k v).st.file =
      st.file ++ encodeFixed64 (cpayload env k v).length ++ cpayload env k v ++
        (ctag env k v ::
          encodeFixed32 (env.crcMask
            (env.crcExtend (env.crcValue (cpayload env k v))
              [ctag env k v]))) ∧
    (encodeFixed64 (cpayload env k v).length).length = kBlockHeaderSize ∧
    (ctag env k v ::
        encodeFixed32 (env.crcMask
          (env.crcExtend (env.crcValue (cpayload env k v))
            [ctag env k v]))).length = kBlockTrailerSize := by
  refine ⟨?_, rfl, by simp [encodeFixed32, kBlockTrailerSize]⟩
  rw [put_allOk_st]
  rfl

theorem getVarint64_putVarint64_nil (v : Nat) (hv : v < 2 ^ 64) :
    getVarint64 (putVarint64 v) = some (v, []) := by
  simpa using getVarint64_putVarint64 v hv []

theorem decodeBlockHandle_encode (off sz : Nat) (ho : off < 2 ^ 64)
    (hs : sz < 2 ^ 64) :
    decodeBlockHandle (putVarint64 off ++ putVarint64 sz) =
      some (off, sz, []) := by
  simp only [decodeBlockHandle, getVarint64_putVarint64 off ho,
    getVarint64_putVarint64_nil sz hs]

theorem readBlockContents_frame (env : Env) (pre payload : Bytes) (t : Nat)
    (hwf : env.WF) :
    readBlockContents env
        (pre ++ payload ++ t ::
          encodeFixed32 (env.crcMask
            (env.crcExtend (env.crcValue payload) [t])))
        pre.length payload.length =
      (match decompressWith env t payload with
       | some out => Except.ok out
       | none => Except.error Status.Corruption) := by
  obtain ⟨hcodec, htag, hcval, hcext, hmask, hunmask⟩ := hwf
  have hmlt : env.crcMask (env.crcExtend (env.crcValue payload) [t]) <
      2 ^ 32 := hmask _ (hcext _ _)
  have hbound : pre.length + payload.length + kBlockTrailerSize ≤
      (pre ++ payload ++ t ::
        encodeFixed32 (env.crcMask
          (env.crcExtend (env.crcValue payload) [t]))).length := by
    simp [encodeFixed32, kBlockTrailerSize]
    omega
  have hpay : (((pre ++ payload ++ t ::
      encodeFixed32 (env.crcMask
        (env.crcExtend (env.crcValue payload) [t]))).drop
          pre.length).take payload.length) = payload := by
    rw [List.append_assoc pre payload, List.drop_left]
    exact List.take_left payload _
  have htrail : ((pre ++ payload ++ t ::
      encodeFixed32 (env.crcMask
        (env.crcExtend (env.crcValue payload) [t]))).drop
          (pre.length + payload.length)).take kBlockTrailerSize =
      t :: encodeFixed32 (env.crcMask
        (env.crcExtend (env.crcValue payload) [t])) := by
    rw [List.drop_left'
      (by simp : (pre ++ payload).length = pre.length + payload.length)]
    simp [encodeFixed32, kBlockTrailerSize]
  simp only [readBlockContents]
  rw [if_pos hbound, hpay, htrail]
  simp only [List.headD_cons, List.tail_cons]
  rw [decodeFixed32_encodeFixed32 _ hmlt, hunmask _ (hcext _ _), if_pos rfl]

/-- C1: after a successful `Put(key, value)` — for every key and value,
including the empty value — `Get(key)` returns OK with exactly the value
that was put: the value round-trips through block building, compression,
framing, checksum, append, index encoding, index decoding, the block read
with checksum verification and decompression, and block re-parsing.  The
hypotheses ask that the writer's offset agree with the file length (as after
any successful `Open`/`Put` prefix), that offsets and lengths fit in 64 bits,
and that the external codec and CRC collaborators are well formed. -/
theorem put_get_roundtrip (env : Env) (st : BlobState) (key value : Bytes)
    (hwf : env.WF) (hoff : st.writer_offset = st.file.length)
    (hb : st.writer_offset + kBlockHeaderSize < 2 ^ 64)
    (hcl : clen env key value < 2 ^ 64)
    (hk : key.length < 2 ^ 64) (hv : value.length < 2 ^ 64) :
    get env (put env allOk st key value).st key = Except.ok value := by
  have hkv : kvGet (put env allOk st key value).st.kv key =
      some (putVarint64 0 ++
        putVarint64 (st.writer_offset + kBlockHeaderSize) ++
        putVarint64 (clen env key value)) := by
    rw [put_allOk_st]
    simp [kvGet]
  have hfile : (put env allOk st key value).st.file =
      (st.file ++ encodeFixed64 (clen env key value)) ++
        cpayload env key value ++
        ctag env key value ::
          encodeFixed32 (env.crcMask
            (env.crcExtend (env.crcValue (cpayload env key value))
              [ctag env key value])) := by
    rw [put_allOk_st]
    rfl
  have hoffpre : st.writer_offset + kBlockHeaderSize =
      (st.file ++ encodeFixed64 (clen env key value)).length := by
    simp [hoff, kBlockHeaderSize, encodeFixed64_length]
  have hread : readBlockContents env
      ((st.file ++ encodeFixed64 (clen env key value)) ++
        cpayload env key value ++
        ctag env key value ::
          encodeFixed32 (env.crcMask
            (env.crcExtend (env.crcValue (cpayload env key value))
              [ctag env key value])))
      (st.file ++ encodeFixed64 (clen env key value)).length
      (clen env key value) =
      (match decompressWith env (ctag env key value) (cpayload env key value)
       with
       | some out => Except.ok out
       | none => Except.error Status.Corruption) :=
    readBlockContents_frame env _ _ _ hwf
  have hdec : decompressWith env (ctag env key value)
      (cpayload env key value) = some (blockBuild key value) :=
    hwf.1 (blockBuild key value)
  simp only [get, hkv, List.append_assoc,
    getVarint64_putVarint64 0 (by norm_num : (0 : Nat) < 2 ^ 64),
    decodeBlockHandle_encode (st.writer_offset + kBlockHeaderSize)
      (clen env key value) hb hcl]
  rw [hfile, hoffpre, hread]
  simp only [hdec, blockFirstValue_blockBuild key value hk hv]

/-- C1 witness: the round-trip theorem applied at the constructor state with
key `[1]` and the empty value under the trivial collaborators. -/
theorem put_get_roundtrip_witness :
    get envW (put envW allOk (mkBlobDB [100] optsW) [1] []).st [1] =
      Except.ok [] :=
  put_get_roundtrip envW (mkBlobDB [100] optsW) [1] [] envW_WF rfl
    (by decide) (by decide) (by decide) (by decide)

theorem readBlockContents_ne_notFound (env : Env) (file : Bytes)
    (off sz : Nat) :
    readBlockContents env file off sz ≠ Except.error Status.NotFound := by
  simp only [readBlockContents]
  split
  · split
    · split <;> simp
    · simp
  · simp

/-- C7: `Get(key)` returns `NotFound` exactly when the key is absent from the
primary store; when an index entry is present, `Get` returns `Corruption` if
the file-identifier varint cannot be parsed or the handle encoding is
malformed, propagates the status (`Corruption` or an I/O error, never
`NotFound`) of the block read, and otherwise returns OK with the decoded
value. -/
theorem get_status_taxonomy (env : Env) (st : BlobState) (key : Bytes) :
    ((get env st key = Except.error Status.NotFound) ↔
      kvGet st.kv key = none) ∧
    (∀ e, kvGet st.kv key = some e → getVarint64 e = none →
      get env st key = Except.error Status.Corruption) ∧
    (∀ e fn r, kvGet st.kv key = some e → getVarint64 e = some (fn, r) →
      decodeBlockHandle r = none →
      get env st key = Except.error Status.Corruption) ∧
    (∀ e fn r off sz r2 s2, kvGet st.kv key = some e →
      getVarint64 e = some (fn, r) →
      decodeBlockHandle r = some (off, sz, r2) →
      readBlockContents env st.file off sz = Except.error s2 →
      get env st key = Except.error s2) ∧
    (∀ e fn r off sz r2 c w, kvGet st.kv key = some e →
      getVarint64 e = some (fn, r) →
      decodeBlockHandle r = some (off, sz, r2) →
      readBlockContents env st.file off sz = Except.ok c →
      blockFirstValue c = some w →
      get env st key = Except.ok w) := by
  refine ⟨⟨?_, ?_⟩, ?_, ?_, ?_, ?_⟩
  · intro hget
    cases hkv : kvGet st.kv key with
    | none => rfl
    | some e =>
      exfalso
      simp only [get, hkv] at hget
      cases hgv : getVarint64 e with
      | none => simp [hgv] at hget
      | some p =>
        obtain ⟨fn, r⟩ := p
        simp only [hgv] at hget
        cases hdh : decodeBlockHandle r with
        | none => simp [hdh] at hget
        | some q =>
          obtain ⟨off, sz, r2⟩ := q
          simp only [hdh] at hget
          cases hrb : readBlockContents env st.file off sz with
          | error s2 =>
            simp only [hrb] at hget
            have hne := readBlockContents_ne_notFound env st.file off sz
            rw [hrb] at hne
            exact hne hget
          | ok c =>
            simp only [hrb] at hget
            cases hbf : blockFirstValue c with
            | none => simp [hbf] at hget
            | some w => simp [hbf] at hget
  · intro hkv
    simp [get, hkv]
  · intro e h1 h2
    simp [get, h1, h2]
  · intro e fn r h1 h2 h3
    simp [get, h1, h2, h3]
  · intro e fn r off sz r2 s2 h1 h2 h3 h4
    simp [get, h1, h2, h3, h4]
  · intro e fn r off sz r2 c w h1 h2 h3 h4 h5
    simp [get, h1, h2, h3, h4, h5]

/-- C7 witness: the taxonomy applied at a fresh database and a key that was
never written, yielding `NotFound`. -/
theorem get_status_taxonomy_witness :
    get envW (mkBlobDB [100] optsW) [9] = Except.error Status.NotFound :=
  (get_status_taxonomy envW (mkBlobDB [100] optsW) [9]).1.mpr (by decide)

/-- C8: `Open()` returns `NotSupported` when no blob directory is configured;
it surfaces the underlying I/O error when directory creation or log-file
creation fails; on success it writes the header (magic, version, has-ttl
flag, LZ4 compression identifier, and — exactly when `has_ttl` is set —
literal `earliest = 0` and `latest = 0`) as the first bytes of the file and
advances `writer_offset_` by exactly the header's encoded size. -/
theorem open_errors_and_header (dbname : Bytes) (opts : BlobDBOptions)
    (f : OpenFaults) (st : BlobState) :
    (opts.blob_dir = [] →
      openDB opts f (mkBlobDB dbname opts) =
        (Status.NotSupported, mkBlobDB dbname opts)) ∧
    (st.blob_dir ≠ [] → f.createDir = false →
      openDB opts f st = (Status.IOError, st)) ∧
    (st.blob_dir ≠ [] → f.createDir = true → f.newWritableFile = false →
      openDB opts f st = (Status.IOError, st)) ∧
    (st.blob_dir ≠ [] →
      (openDB opts allOpenOk st).1 = Status.Ok ∧
      (openDB opts allOpenOk st).2.file =
        serializeProps (createHeader opts none) ∧
      (openDB opts allOpenOk st).2.writer_offset =
        st.writer_offset + (serializeProps (createHeader opts none)).length) ∧
    ("magic", kBlockBasedTableMagicNumber) ∈ createHeader opts none ∧
    ("version", 0) ∈ createHeader opts none ∧
    ("has_ttl", if opts.has_ttl then 1 else 0) ∈ createHeader opts none ∧
    ("compression", kLZ4Compression) ∈ createHeader opts none ∧
    ((("earliest", 0) ∈ createHeader opts none) ↔ opts.has_ttl = true) ∧
    ((("latest", 0) ∈ createHeader opts none) ↔ opts.has_ttl = true) := by
  refine ⟨?_, ?_, ?_, ?_, ?_, ?_, ?_, ?_, ?_, ?_⟩
  · intro h
    simp [openDB, mkBlobDB, h]
  · intro h hf
    simp [openDB, if_neg h, hf]
  · intro h hf1 hf2
    simp [openDB, if_neg h, hf1, hf2]
  · intro h
    rw [openDB_allOk opts st h]
    exact ⟨rfl, rfl, rfl⟩
  · cases hh : opts.has_ttl <;> simp [createHeader, hh]
  · cases hh : opts.has_ttl <;> simp [createHeader, hh]
  · cases hh : opts.has_ttl <;> simp [createHeader, hh]
  · cases hh : opts.has_ttl <;> simp [createHeader, hh]
  · cases hh : opts.has_ttl <;> simp [createHeader, hh]
  · cases hh : opts.has_ttl <;> simp [createHeader, hh]

/-- C8 witness: `Open` with an empty `blob_dir` configuration returns
`NotSupported` and leaves the state unchanged. -/
theorem open_errors_and_header_witness :
    openDB optsEmptyW allOpenOk (mkBlobDB [100] optsEmptyW) =
      (Status.NotSupported, mkBlobDB [100] optsEmptyW) :=
  (open_errors_and_header [100] optsEmptyW allOpenOk
    (mkBlobDB [100] optsEmptyW)).1 rfl

/-- C9: the trailer's compression-type tag of a written record is the type
the codec actually reported for that payload (possibly not LZ4), while the
file header's `compression` property is unconditionally the LZ4 identifier
(value 4); the read path decompresses each record according to the tag read
from that record's own trailer, independently of the header field. -/
theorem trailer_tag_semantics (env : Env) (st : BlobState) (k v : Bytes)
    (opts : BlobDBOptions) (pre payload : Bytes) (t : Nat) (hwf : env.WF) :
    ((put env allOk st k v).st.file).drop
        (st.file.length + kBlockHeaderSize + clen env k v) =
      ctag env k v ::
        encodeFixed32 (env.crcMask
          (env.crcExtend (env.crcValue (cpayload env k v))
            [ctag env k v])) ∧
    ctag env k v = (env.compressBlock (blockBuild k v)).2 % 256 ∧
    ("compression", kLZ4Compression) ∈ createHeader opts none ∧
    kLZ4Compression = 4 ∧
    readBlockContents env
        (pre ++ payload ++ t ::
          encodeFixed32 (env.crcMask
            (env.crcExtend (env.crcValue payload) [t])))
        pre.length payload.length =
      (match decompressWith env t payload with
       | some out => Except.ok out
       | none => Except.error Status.Corruption) := by
  refine ⟨?_, rfl, ?_, rfl, readBlockContents_frame env pre payload t hwf⟩
  · rw [put_allOk_st]
    show (st.file ++ encodeFixed64 (clen env k v) ++ cpayload env k v ++
        ctrailer env k v).drop
          (st.file.length + kBlockHeaderSize + clen env k v) =
      ctag env k v ::
        encodeFixed32 (env.crcMask
          (env.crcExtend (env.crcValue (cpayload env k v)) [ctag env k v]))
    rw [List.drop_left'
      (by simp [encodeFixed64_length, cpayload_length, kBlockHeaderSize]
          omega :
        (st.file ++ encodeFixed64 (clen env k v) ++
          cpayload env k v).length =
          st.file.length + kBlockHeaderSize + clen env k v)]
    rfl
  · cases hh : opts.has_ttl <;> simp [createHeader, hh]

/-- C9 witness: the per-record decode rule applied at a concrete frame whose
trailer tag is `kNoCompression`, recovering the payload as-is. -/
theorem trailer_tag_semantics_witness :
    readBlockContents envW
        ([5] ++ [7] ++ 0 ::
          encodeFixed32 (envW.crcMask
            (envW.crcExtend (envW.crcValue [7]) [0])))
        [5].length [7].length = Except.ok [7] :=
  ((trailer_tag_semantics envW (mkBlobDB [100] optsW) [1] [2] optsW [5] [7] 0
    envW_WF).2.2.2.2).trans (by rfl)

/-- C10: every `Open()` recreates `blob_dir/blob_log` afresh — after the call
the file holds exactly the new header, so previously written records are
gone — while `writer_offset_` is not reset (it is 0 only in the constructor)
and the primary store's index entries survive; consequently an index entry
whose handle points at or past the new header's end is no longer readable
after a re-`Open`. -/
theorem reopen_truncates (env : Env) (dbname : Bytes) (opts : BlobDBOptions)
    (st : BlobState) (hdir : st.blob_dir ≠ []) :
    (openDB opts allOpenOk st).1 = Status.Ok ∧
    (openDB opts allOpenOk st).2.file =
      serializeProps (createHeader opts none) ∧
    (openDB opts allOpenOk st).2.writer_offset =
      st.writer_offset + (serializeProps (createHeader opts none)).length ∧
    (mkBlobDB dbname opts).writer_offset = 0 ∧
    (openDB opts allOpenOk st).2.kv = st.kv ∧
    (∀ key e fn r off sz r2, kvGet st.kv key = some e →
      getVarint64 e = some (fn, r) →
      decodeBlockHandle r = some (off, sz, r2) →
      (serializeProps (createHeader opts none)).length ≤ off →
      get env (openDB opts allOpenOk st).2 key =
        Except.error Status.IOError) := by
  rw [openDB_allOk opts st hdir]
  refine ⟨rfl, rfl, rfl, rfl, rfl, ?_⟩
  intro key e fn r off sz r2 h1 h2 h3 h4
  have hrb : readBlockContents env (serializeProps (createHeader opts none))
      off sz = Except.error Status.IOError := by
    simp only [readBlockContents]
    rw [if_neg (by simp only [kBlockTrailerSize]; omega)]
  simp only [get, h1, h2, h3, hrb]

/-- C10 witness: re-opening over a state whose index holds a handle at
offset 1000 makes that record unreadable (the read fails with an I/O
error). -/
theorem reopen_truncates_witness :
    get envW (openDB optsW allOpenOk stStaleW).2 [1] =
      Except.error Status.IOError :=
  (reopen_truncates envW [100] optsW stStaleW (by decide)).2.2.2.2.2
    [1] [0, 232, 7, 3] 0 [232, 7, 3] 1000 3 [] (by decide) (by decide)
    (by decide) (by decide)

/-- C2 witness: the amended offset formula applied at the failing-header
schedule on a fresh database — the offset advances by exactly the header
size while the file receives no bytes. -/
theorem put_writer_offset_formula_witness :
    (put envW faultHeaderW (mkBlobDB [100] optsW) [1] [2]).st.writer_offset =
        8 ∧
    (put envW faultHeaderW (mkBlobDB [100] optsW) [1] [2]).st.file.length =
        0 := by
  have h := put_writer_offset_formula envW faultHeaderW (mkBlobDB [100] optsW)
    [1] [2]
  exact ⟨h.1.trans (by decide), h.2.trans (by decide)⟩

/-- C3 witness: the offset law applied to one `Put` after `Open` on a
concrete configuration. -/
theorem open_putMany_offset_witness :
    (putMany envW (openDB optsW allOpenOk (mkBlobDB [100] optsW)).2
        [([1], [2])]).1.writer_offset =
      (serializeProps (createHeader optsW none)).length +
        ([(([1] : Bytes), ([2] : Bytes))].map (fun p =>
          kBlockHeaderSize + clen envW p.1 p.2 + kBlockTrailerSize)).sum :=
  (open_putMany_offset envW [100] optsW [([1], [2])] (by decide)).1

/-- C4 witness: the cadence law applied at the constructor state, where the
first `Put` does not cross the sync threshold and so leaves it unchanged. -/
theorem sync_cadence_witness :
    (put envW allOk (mkBlobDB [100] optsW) [1] [2]).st.next_sync_offset =
      (mkBlobDB [100] optsW).next_sync_offset :=
  ((sync_cadence envW (mkBlobDB [100] optsW) [1] [2] []).2.1).trans (by decide)

/-- C5 witness: the index entry recorded by the first `Put` on a fresh
database encodes file number 0, offset 8 and the compressed size 13. -/
theorem put_handle_in_index_witness :
    kvGet (put envW allOk (mkBlobDB [100] optsW) [1] [2]).st.kv [1] =
      some [0, 8, 13] :=
  (put_handle_in_index envW (mkBlobDB [100] optsW) [1] [2]).trans (by decide)

/-- C6 witness: the frame law instantiated at a concrete record. -/
theorem put_record_frame_witness :
    (put envW allOk (mkBlobDB [100] optsW) [1] [2]).st.file =
      (mkBlobDB [100] optsW).file ++
        encodeFixed64 (cpayload envW [1] [2]).length ++
        cpayload envW [1] [2] ++
        (ctag envW [1] [2] ::
          encodeFixed32 (envW.crcMask
            (envW.crcExtend (envW.crcValue (cpayload envW [1] [2]))
              [ctag envW [1] [2]]))) :=
  (put_record_frame envW (mkBlobDB [100] optsW) [1] [2]).1

end BlobDB

